import Mathlib

/-!
Verification of the AuralFlowAI client core: the task-status poller
(`pollTaskStatus`), the link validator (`validateVideoLink`) and the
submission client (`submitVoiceClone`) from `frontend/src/services/api.ts`
and `frontend/src/utils/link-validation.ts`, shallowly embedded in Lean.
-/

namespace AuralFlow

/-- Status snapshot returned by `GET /voice/status/{task_id}`, from
`frontend/src/types/upload.ts` (`VoiceCloneStatusResponse`). Optional fields
are `Option`; a JS `string | undefined` field is `Option String`. -/
structure VoiceCloneStatusResponse where
  task_id : String
  status : String
  progress : Option Nat
  result_url : Option String
  error_message : Option String
  estimated_completion : Option String
deriving DecidableEq

/-- A JavaScript value that can be thrown / passed to `reject`: either an
`Error` object carrying a message (as built by `new Error(msg)`), or any
other value, kept abstract by a description. -/
inductive JSValue where
  | jsError (message : String)
  | other (description : String)
deriving DecidableEq

/-- JS `x || d` specialised to `x : string | undefined`: the default is used
when `x` is `undefined` or the empty string (both falsy). This is the exact
semantics of `status.error_message || "Task failed"` and of
`request.source || "local"` in `api.ts`. -/
def jsOrString (o : Option String) (d : String) : String :=
  match o with
  | none => d
  | some s => if s = "" then d else s

/-- One observable event of a polling session, in the order the poll loop in
`pollTaskStatus` produces them: a fetch is issued (`fetchStart`), its
response arrives (`fetchOk`) or the transport throws (`fetchErr`), the
`onUpdate` observer is invoked (`observe`), a `setTimeout` wait is scheduled
(`wait`), and the outcome promise settles (`resolve` / `reject`). -/
inductive PollEvent where
  | fetchStart (n : Nat)
  | fetchOk (n : Nat) (s : VoiceCloneStatusResponse)
  | fetchErr (n : Nat) (e : JSValue)
  | observe (n : Nat) (s : VoiceCloneStatusResponse)
  | wait (ms : Nat)
  | resolve (s : VoiceCloneStatusResponse)
  | reject (e : JSValue)
deriving DecidableEq

/-- The transport environment of one polling session: the result of the
`n`-th `getVoiceCloneStatus` fetch — a snapshot, or a thrown transport
error. -/
def FetchEnv : Type := Nat → Except JSValue VoiceCloneStatusResponse

/-- The caller-supplied observer: on the `n`-th poll it is invoked with the
fetched snapshot and either returns normally (`none`) or throws (`some e`). -/
def Observer : Type := Nat → VoiceCloneStatusResponse → Option JSValue

/-- The recursive `poll` closure inside `pollTaskStatus` (`api.ts`),
embedded as a trace-producing function. Each round: fetch the status
(`await getVoiceCloneStatus(taskId)`); on a thrown transport error,
`reject(error)`; otherwise invoke `onUpdate(status)` (which may itself
throw, also landing in the surrounding `catch`); then
if `status === "success"` resolve with the snapshot, else if
`status === "failure"` reject with
`new Error(status.error_message || "Task failed")`, else
`setTimeout(poll, pollInterval)` and continue with the next round.
`fuel` bounds how many rounds we unfold; `none` means the loop was still
running when the fuel ran out. -/
def pollRun (env : FetchEnv) (onUpdate : Observer) (pollInterval : Nat) :
    Nat → Nat → Option (List PollEvent)
  | 0, _ => none
  | fuel + 1, n =>
    match env n with
    | .error e => some [.fetchStart n, .fetchErr n e, .reject e]
    | .ok s =>
      match onUpdate n s with
      | some e => some [.fetchStart n, .fetchOk n s, .observe n s, .reject e]
      | none =>
        if s.status = "success" then
          some [.fetchStart n, .fetchOk n s, .observe n s, .resolve s]
        else if s.status = "failure" then
          some [.fetchStart n, .fetchOk n s, .observe n s,
                .reject (.jsError (jsOrString s.error_message "Task failed"))]
        else
          (pollRun env onUpdate pollInterval fuel (n + 1)).map
            (fun tr => .fetchStart n :: .fetchOk n s :: .observe n s ::
                       .wait pollInterval :: tr)

/-- Default value of the `pollInterval` parameter of `pollTaskStatus`
(`pollInterval: number = 2000`). -/
def defaultPollInterval : Nat := 2000

/-- `pollTaskStatus(taskId, onUpdate, pollInterval)` from `api.ts`: starts
the `poll` closure at round 0 against the transport environment for
`taskId`. -/
def pollTaskStatus (taskId : String) (env : String → FetchEnv)
    (onUpdate : Observer) (pollInterval : Nat) (fuel : Nat) :
    Option (List PollEvent) :=
  pollRun (env taskId) onUpdate pollInterval fuel 0

/-- Number of promise settlements (`resolve` or `reject`) in a trace. -/
def settleCount (tr : List PollEvent) : Nat :=
  (tr.filter fun e =>
    match e with
    | .resolve _ => true
    | .reject _ => true
    | _ => false).length

/-- Number of fetches issued in a trace. -/
def fetchCount (tr : List PollEvent) : Nat :=
  (tr.filter fun e =>
    match e with
    | .fetchStart _ => true
    | _ => false).length

/-- The poll indices at which the observer was invoked, in trace order. -/
def observedPolls (tr : List PollEvent) : List Nat :=
  tr.filterMap fun e =>
    match e with
    | .observe n _ => some n
    | _ => none

/-- The snapshots passed to the observer, in trace order. -/
def observedSnaps (tr : List PollEvent) : List VoiceCloneStatusResponse :=
  tr.filterMap fun e =>
    match e with
    | .observe _ s => some s
    | _ => none

/-- `pollRange start m` = `[start, start+1, ..., start+m-1]`. -/
def pollRange : Nat → Nat → List Nat
  | _, 0 => []
  | start, m + 1 => start :: pollRange (start + 1) m

/-- Round `k` neither settles nor throws: the fetch succeeds, the observer
returns normally, and the status is non-terminal, so the loop schedules
another poll. -/
def continuesAt (env : FetchEnv) (onUpdate : Observer) (k : Nat) : Bool :=
  match env k with
  | .error _ => false
  | .ok s =>
    (onUpdate k s).isNone && decide (s.status ≠ "success") &&
      decide (s.status ≠ "failure")

/-- The fetched sequence itself forces a settlement at round `n`: a
transport error, or a terminal (`success`/`failure`) snapshot. -/
def fetchSettlesAt (env : FetchEnv) (n : Nat) : Bool :=
  match env n with
  | .error _ => true
  | .ok s => decide (s.status = "success") || decide (s.status = "failure")

/-- The events of rounds `start, …, start+m-1`, each of which continues:
fetch issued, response received, observer invoked, wait scheduled. -/
def contTrace (env : FetchEnv) (pollInterval : Nat) :
    Nat → Nat → List PollEvent
  | _, 0 => []
  | start, m + 1 =>
    (match env start with
     | .ok s => [.fetchStart start, .fetchOk start s, .observe start s,
                 .wait pollInterval]
     | .error _ => []) ++ contTrace env pollInterval (start + 1) m

theorem continuesAt_iff {env : FetchEnv} {onUpdate : Observer} {k : Nat} :
    continuesAt env onUpdate k = true ↔
      ∃ s, env k = .ok s ∧ onUpdate k s = none ∧
        s.status ≠ "success" ∧ s.status ≠ "failure" := by
  cases h : env k with
  | error e => simp [continuesAt, h]
  | ok s => simp [continuesAt, h, Option.isNone_iff_eq_none, and_assoc]

theorem pollRun_step_err {env : FetchEnv} {onUpdate : Observer}
    {interval fuel n : Nat} {e : JSValue} (h : env n = .error e) :
    pollRun env onUpdate interval (fuel + 1) n
      = some [.fetchStart n, .fetchErr n e, .reject e] := by
  simp [pollRun, h]

theorem pollRun_step_throw {env : FetchEnv} {onUpdate : Observer}
    {interval fuel n : Nat} {s : VoiceCloneStatusResponse} {e : JSValue}
    (h : env n = .ok s) (ho : onUpdate n s = some e) :
    pollRun env onUpdate interval (fuel + 1) n
      = some [.fetchStart n, .fetchOk n s, .observe n s, .reject e] := by
  simp [pollRun, h, ho]

theorem pollRun_step_success {env : FetchEnv} {onUpdate : Observer}
    {interval fuel n : Nat} {s : VoiceCloneStatusResponse}
    (h : env n = .ok s) (ho : onUpdate n s = none)
    (hs : s.status = "success") :
    pollRun env onUpdate interval (fuel + 1) n
      = some [.fetchStart n, .fetchOk n s, .observe n s, .resolve s] := by
  simp [pollRun, h, ho, hs]

theorem pollRun_step_failure {env : FetchEnv} {onUpdate : Observer}
    {interval fuel n : Nat} {s : VoiceCloneStatusResponse}
    (h : env n = .ok s) (ho : onUpdate n s = none)
    (hs : s.status = "failure") :
    pollRun env onUpdate interval (fuel + 1) n
      = some [.fetchStart n, .fetchOk n s, .observe n s,
              .reject (.jsError (jsOrString s.error_message "Task failed"))] := by
  simp [pollRun, h, ho, hs]

theorem pollRun_step_cont {env : FetchEnv} {onUpdate : Observer}
    {interval fuel n : Nat} {s : VoiceCloneStatusResponse}
    (h : env n = .ok s) (ho : onUpdate n s = none)
    (h1 : s.status ≠ "success") (h2 : s.status ≠ "failure") :
    pollRun env onUpdate interval (fuel + 1) n
      = (pollRun env onUpdate interval fuel (n + 1)).map
          (fun tr => .fetchStart n :: .fetchOk n s :: .observe n s ::
                     .wait interval :: tr) := by
  simp [pollRun, h, ho, h1, h2]

theorem pollRun_append (env : FetchEnv) (onUpdate : Observer) (interval : Nat) :
    ∀ (m start fuel : Nat),
      (∀ j, j < m → continuesAt env onUpdate (start + j) = true) →
      pollRun env onUpdate interval (m + fuel) start
        = (pollRun env onUpdate interval fuel (start + m)).map
            (fun tr => contTrace env interval start m ++ tr) := by
  intro m
  induction m with
  | zero =>
    intro start fuel _
    simp [contTrace]
  | succ m ih =>
    intro start fuel hcont
    obtain ⟨s, henv, hobs, h1, h2⟩ :=
      continuesAt_iff.mp (by simpa using hcont 0 (Nat.succ_pos m))
    have hstep : (m + 1) + fuel = (m + fuel) + 1 := by omega
    rw [hstep, pollRun_step_cont henv hobs h1 h2]
    have ihh := ih (start + 1) fuel (fun j hj => by
      have h3 := hcont (j + 1) (by omega)
      have h4 : start + (j + 1) = start + 1 + j := by omega
      rwa [h4] at h3)
    rw [ihh, Option.map_map]
    have harr : start + 1 + m = start + (m + 1) := by omega
    rw [harr]
    congr 1
    funext tr
    simp [contTrace, henv, Function.comp]

theorem pollRun_reach {env : FetchEnv} {onUpdate : Observer}
    {interval n fuel : Nat}
    (hcont : ∀ k, k < n → continuesAt env onUpdate k = true)
    (hfuel : n < fuel) :
    pollRun env onUpdate interval fuel 0
      = (pollRun env onUpdate interval (fuel - n) n).map
          (fun tr => contTrace env interval 0 n ++ tr) := by
  have h := pollRun_append env onUpdate interval n 0 (fuel - n)
    (fun j hj => by simpa using hcont j hj)
  have heq : n + (fuel - n) = fuel := by omega
  rw [heq] at h
  simpa using h

theorem fetchCount_append (l1 l2 : List PollEvent) :
    fetchCount (l1 ++ l2) = fetchCount l1 + fetchCount l2 := by
  simp [fetchCount, List.filter_append]

theorem settleCount_append (l1 l2 : List PollEvent) :
    settleCount (l1 ++ l2) = settleCount l1 + settleCount l2 := by
  simp [settleCount, List.filter_append]

theorem fetchCount_contTrace (env : FetchEnv) (onUpdate : Observer)
    (interval : Nat) :
    ∀ (m start : Nat),
      (∀ j, j < m → continuesAt env onUpdate (start + j) = true) →
      fetchCount (contTrace env interval start m) = m := by
  intro m
  induction m with
  | zero => intro start _; simp [contTrace, fetchCount]
  | succ m ih =>
    intro start hcont
    obtain ⟨s, henv, -, -, -⟩ :=
      continuesAt_iff.mp (by simpa using hcont 0 (Nat.succ_pos m))
    have hrest := ih (start + 1) (fun j hj => by
      have h3 := hcont (j + 1) (by omega)
      have h4 : start + (j + 1) = start + 1 + j := by omega
      rwa [h4] at h3)
    rw [show contTrace env interval start (m + 1)
          = [.fetchStart start, .fetchOk start s, .observe start s,
             .wait interval] ++ contTrace env interval (start + 1) m from by
        simp [contTrace, henv]]
    rw [fetchCount_append, hrest]
    have h4 : fetchCount [.fetchStart start, .fetchOk start s,
        .observe start s, .wait interval] = 1 := rfl
    omega

theorem settleCount_contTrace (env : FetchEnv) (onUpdate : Observer)
    (interval : Nat) :
    ∀ (m start : Nat),
      (∀ j, j < m → continuesAt env onUpdate (start + j) = true) →
      settleCount (contTrace env interval start m) = 0 := by
  intro m
  induction m with
  | zero => intro start _; simp [contTrace, settleCount]
  | succ m ih =>
    intro start hcont
    obtain ⟨s, henv, -, -, -⟩ :=
      continuesAt_iff.mp (by simpa using hcont 0 (Nat.succ_pos m))
    have hrest := ih (start + 1) (fun j hj => by
      have h3 := hcont (j + 1) (by omega)
      have h4 : start + (j + 1) = start + 1 + j := by omega
      rwa [h4] at h3)
    rw [show contTrace env interval start (m + 1)
          = [.fetchStart start, .fetchOk start s, .observe start s,
             .wait interval] ++ contTrace env interval (start + 1) m from by
        simp [contTrace, henv]]
    rw [settleCount_append, hrest]
    have h4 : settleCount [.fetchStart start, .fetchOk start s,
        .observe start s, .wait interval] = 0 := rfl
    omega

theorem settleCount_pollRun (env : FetchEnv) (onUpdate : Observer)
    (interval : Nat) :
    ∀ (fuel start : Nat) (trace : List PollEvent),
      pollRun env onUpdate interval fuel start = some trace →
      settleCount trace = 1 := by
  intro fuel
  induction fuel with
  | zero => intro start trace h; simp [pollRun] at h
  | succ fuel ih =>
    intro start trace h
    cases henv : env start with
    | error e =>
      rw [pollRun_step_err henv] at h
      injection h with h
      simp [← h, settleCount]
    | ok s =>
      cases hobs : onUpdate start s with
      | some e =>
        rw [pollRun_step_throw henv hobs] at h
        injection h with h
        simp [← h, settleCount]
      | none =>
        by_cases h1 : s.status = "success"
        · rw [pollRun_step_success henv hobs h1] at h
          injection h with h
          simp [← h, settleCount]
        · by_cases h2 : s.status = "failure"
          · rw [pollRun_step_failure henv hobs h2] at h
            injection h with h
            simp [← h, settleCount]
          · rw [pollRun_step_cont henv hobs h1 h2] at h
            cases hrec : pollRun env onUpdate interval fuel (start + 1) with
            | none => rw [hrec] at h; simp at h
            | some tr =>
              rw [hrec] at h
              injection h with h
              have hs := ih (start + 1) tr hrec
              simp [← h, settleCount] at hs ⊢
              exact hs

theorem pollRun_isSome_of_fetchSettles (env : FetchEnv) (onUpdate : Observer)
    (interval : Nat) :
    ∀ (n start : Nat), fetchSettlesAt env (start + n) = true →
      (pollRun env onUpdate interval (n + 1) start).isSome = true := by
  intro n
  induction n with
  | zero =>
    intro start h
    rw [Nat.add_zero] at h
    cases henv : env start with
    | error e => rw [pollRun_step_err henv]; rfl
    | ok s =>
      have hterm : s.status = "success" ∨ s.status = "failure" := by
        simpa [fetchSettlesAt, henv] using h
      cases hobs : onUpdate start s with
      | some e => rw [pollRun_step_throw henv hobs]; rfl
      | none =>
        rcases hterm with h1 | h1
        · rw [pollRun_step_success henv hobs h1]; rfl
        · rw [pollRun_step_failure henv hobs h1]; rfl
  | succ n ih =>
    intro start h
    cases henv : env start with
    | error e => rw [pollRun_step_err henv]; rfl
    | ok s =>
      cases hobs : onUpdate start s with
      | some e => rw [pollRun_step_throw henv hobs]; rfl
      | none =>
        by_cases h1 : s.status = "success"
        · rw [pollRun_step_success henv hobs h1]; rfl
        · by_cases h2 : s.status = "failure"
          · rw [pollRun_step_failure henv hobs h2]; rfl
          · rw [pollRun_step_cont henv hobs h1 h2]
            have hnext : fetchSettlesAt env (start + 1 + n) = true := by
              have h4 : start + 1 + n = start + (n + 1) := by omega
              rwa [h4]
            have hrec := ih (start + 1) hnext
            cases hr : pollRun env onUpdate interval (n + 1) (start + 1) with
            | none => rw [hr] at hrec; simp at hrec
            | some tr => rfl

theorem pollRun_settle_at {env : FetchEnv} {onUpdate : Observer}
    {interval n fuel : Nat} {evts : List PollEvent}
    (hreach : ∀ k, k < n → continuesAt env onUpdate k = true) (hfuel : n < fuel)
    (hstep : ∀ f, pollRun env onUpdate interval (f + 1) n = some evts) :
    pollRun env onUpdate interval fuel 0
      = some (contTrace env interval 0 n ++ evts) := by
  rw [pollRun_reach hreach hfuel]
  have h : fuel - n = (fuel - n - 1) + 1 := by omega
  rw [h, hstep]
  rfl

theorem fetchCount_settled {env : FetchEnv} {onUpdate : Observer}
    {interval n : Nat} (evts : List PollEvent)
    (hreach : ∀ k, k < n → continuesAt env onUpdate k = true)
    (h1 : fetchCount evts = 1) :
    fetchCount (contTrace env interval 0 n ++ evts) = n + 1 := by
  rw [fetchCount_append, h1,
    fetchCount_contTrace env onUpdate interval n 0
      (fun j hj => by simpa using hreach j hj)]

/-- A status snapshot with the given status and error message, used as
concrete test data. -/
def demoSnap (st : String) (msg : Option String) : VoiceCloneStatusResponse :=
  ⟨"task-1", st, none, none, msg, none⟩

/-- Observer that always returns normally. -/
def obsQuiet : Observer := fun _ _ => none

/-- Environment whose fetches report `pending` once, then `success`. -/
def envSucceedsAt1 : String → FetchEnv := fun _ n =>
  if n = 0 then .ok (demoSnap "pending" none) else .ok (demoSnap "success" none)

/-- C1: for every task identifier and every fetched status sequence that
eventually contains a terminal status (`success`/`failure`) or a transport
error at some round `n`, `pollTaskStatus` terminates (within `n + 1` polls)
and its outcome settles exactly once: the produced trace contains exactly
one `resolve`/`reject` event. -/
theorem pollTaskStatus_settles_exactly_once (taskId : String)
    (env : String → FetchEnv) (onUpdate : Observer) (interval n : Nat)
    (h : fetchSettlesAt (env taskId) n = true) :
    ∃ trace, pollTaskStatus taskId env onUpdate interval (n + 1) = some trace ∧
      settleCount trace = 1 := by
  have hsome := pollRun_isSome_of_fetchSettles (env taskId) onUpdate interval
    n 0 (by simpa using h)
  obtain ⟨trace, htrace⟩ := Option.isSome_iff_exists.mp hsome
  exact ⟨trace, htrace, settleCount_pollRun _ _ _ _ _ _ htrace⟩

theorem pollTaskStatus_settles_exactly_once_witness :
    ∃ trace, pollTaskStatus "task-1" envSucceedsAt1 obsQuiet 2000 2
        = some trace ∧ settleCount trace = 1 :=
  pollTaskStatus_settles_exactly_once "task-1" envSucceedsAt1 obsQuiet 2000 1
    (by decide)

/-- C2: if the `n`-th poll fetches a `success` snapshot (all earlier rounds
continuing), the outcome resolves with exactly that snapshot — the trace ends
with `resolve s` — and no further fetch is issued: for every fuel bound
above `n` the trace is the same and contains exactly `n + 1` fetches. -/
theorem pollTaskStatus_success_stops (taskId : String)
    (env : String → FetchEnv) (onUpdate : Observer) (interval n : Nat)
    (s : VoiceCloneStatusResponse)
    (hreach : ∀ k, k < n → continuesAt (env taskId) onUpdate k = true)
    (henv : env taskId n = .ok s) (hobs : onUpdate n s = none)
    (hs : s.status = "success") (fuel : Nat) (hfuel : n < fuel) :
    pollTaskStatus taskId env onUpdate interval fuel
      = some (contTrace (env taskId) interval 0 n ++
          [.fetchStart n, .fetchOk n s, .observe n s, .resolve s]) ∧
    fetchCount (contTrace (env taskId) interval 0 n ++
        [.fetchStart n, .fetchOk n s, .observe n s, .resolve s]) = n + 1 :=
  ⟨pollRun_settle_at hreach hfuel
      (fun _ => pollRun_step_success henv hobs hs),
   fetchCount_settled _ hreach rfl⟩

theorem pollTaskStatus_success_stops_witness :
    pollTaskStatus "task-1" envSucceedsAt1 obsQuiet 2000 5
      = some [.fetchStart 0, .fetchOk 0 (demoSnap "pending" none),
              .observe 0 (demoSnap "pending" none), .wait 2000,
              .fetchStart 1, .fetchOk 1 (demoSnap "success" none),
              .observe 1 (demoSnap "success" none),
              .resolve (demoSnap "success" none)] := by
  have h := (pollTaskStatus_success_stops "task-1" envSucceedsAt1 obsQuiet
    2000 1 (demoSnap "success" none) (by decide) rfl rfl rfl 5 (by decide)).1
  exact h.trans (by decide)

/-- Snapshot with status `failure` and a present-but-empty error message. -/
def snapEmptyMsg : VoiceCloneStatusResponse := demoSnap "failure" (some "")

/-- Environment that always reports `snapEmptyMsg`. -/
def envEmptyMsg : String → FetchEnv := fun _ _ => .ok snapEmptyMsg

/-- C3 counterexample: a `failure` snapshot whose `error_message` field is
present but equal to `""` is rejected with the fallback message
`"Task failed"`, not with the (empty) value of the field — JavaScript's
`status.error_message || "Task failed"` treats the empty string as falsy.
So the claim "the rejection message equals the snapshot's `error_message`
whenever that field is present" fails at this input. -/
theorem pollTaskStatus_failure_message_counterexample :
    snapEmptyMsg.error_message = some "" ∧
    pollTaskStatus "task-1" envEmptyMsg obsQuiet 2000 1
      = some [.fetchStart 0, .fetchOk 0 snapEmptyMsg, .observe 0 snapEmptyMsg,
              .reject (.jsError "Task failed")] ∧
    ("Task failed" : String) ≠ "" := by decide

/-- C3 (amended): if the `n`-th poll fetches a `failure` snapshot (all
earlier rounds continuing), the outcome is rejected with an error whose
message is the snapshot's `error_message` when that field is present and
non-empty, and the fallback `"Task failed"` when it is absent or empty; no
further fetch is issued. Under `[pending, failure]` with
`error_message = "model timeout"` the rejection message is
`"model timeout"` (see the witness). -/
theorem pollTaskStatus_failure_rejects (taskId : String)
    (env : String → FetchEnv) (onUpdate : Observer) (interval n : Nat)
    (s : VoiceCloneStatusResponse)
    (hreach : ∀ k, k < n → continuesAt (env taskId) onUpdate k = true)
    (henv : env taskId n = .ok s) (hobs : onUpdate n s = none)
    (hs : s.status = "failure") (fuel : Nat) (hfuel : n < fuel) :
    (pollTaskStatus taskId env onUpdate interval fuel
      = some (contTrace (env taskId) interval 0 n ++
          [.fetchStart n, .fetchOk n s, .observe n s,
           .reject (.jsError (jsOrString s.error_message "Task failed"))])) ∧
    fetchCount (contTrace (env taskId) interval 0 n ++
        [.fetchStart n, .fetchOk n s, .observe n s,
         .reject (.jsError (jsOrString s.error_message "Task failed"))])
      = n + 1 ∧
    (∀ m, s.error_message = some m → m ≠ "" →
      jsOrString s.error_message "Task failed" = m) ∧
    ((s.error_message = none ∨ s.error_message = some "") →
      jsOrString s.error_message "Task failed" = "Task failed") := by
  refine ⟨pollRun_settle_at hreach hfuel
      (fun _ => pollRun_step_failure henv hobs hs),
    fetchCount_settled _ hreach rfl, ?_, ?_⟩
  · intro m hm hne
    simp [jsOrString, hm, hne]
  · rintro (hm | hm) <;> simp [jsOrString, hm]

/-- Snapshot for the spec's `[pending, failure]` example. -/
def snapTimeout : VoiceCloneStatusResponse :=
  demoSnap "failure" (some "model timeout")

/-- Environment fetching `pending`, then failure with `"model timeout"`. -/
def envTimeout : String → FetchEnv := fun _ n =>
  if n = 0 then .ok (demoSnap "pending" none) else .ok snapTimeout

theorem pollTaskStatus_failure_rejects_witness :
    pollTaskStatus "task-1" envTimeout obsQuiet 2000 2
      = some [.fetchStart 0, .fetchOk 0 (demoSnap "pending" none),
              .observe 0 (demoSnap "pending" none), .wait 2000,
              .fetchStart 1, .fetchOk 1 snapTimeout, .observe 1 snapTimeout,
              .reject (.jsError "model timeout")] := by
  have h := (pollTaskStatus_failure_rejects "task-1" envTimeout obsQuiet
    2000 1 snapTimeout (by decide) rfl rfl rfl 2 (by decide)).1
  exact h.trans (by decide)

/-- Environment that always reports the unrecognized status `"queued"`. -/
def envQueued : String → FetchEnv := fun _ _ => .ok (demoSnap "queued" none)

/-- C4: if the `n`-th poll fetches a snapshot whose status is neither
`success` nor `failure` (all earlier rounds continuing and the observer
returning normally), the loop does not settle at round `n`: it appends a
`wait interval` event (the `setTimeout(poll, pollInterval)` call, with the
caller-supplied interval) and the rest of the run is exactly a fresh run
from round `n + 1`. The source default for the interval parameter is
2000 ms. -/
theorem pollTaskStatus_nonterminal_continues (taskId : String)
    (env : String → FetchEnv) (onUpdate : Observer) (interval n : Nat)
    (s : VoiceCloneStatusResponse)
    (hreach : ∀ k, k < n → continuesAt (env taskId) onUpdate k = true)
    (henv : env taskId n = .ok s) (hobs : onUpdate n s = none)
    (h1 : s.status ≠ "success") (h2 : s.status ≠ "failure") :
    (∀ fuel, pollTaskStatus taskId env onUpdate interval ((n + 1) + fuel)
        = (pollRun (env taskId) onUpdate interval fuel (n + 1)).map
            (fun tr => (contTrace (env taskId) interval 0 n ++
              [.fetchStart n, .fetchOk n s, .observe n s, .wait interval])
              ++ tr)) ∧
    settleCount (contTrace (env taskId) interval 0 n ++
        [.fetchStart n, .fetchOk n s, .observe n s, .wait interval]) = 0 ∧
    defaultPollInterval = 2000 := by
  refine ⟨?_, ?_, rfl⟩
  · intro fuel
    show pollRun (env taskId) onUpdate interval ((n + 1) + fuel) 0 = _
    rw [pollRun_reach hreach (by omega)]
    have hsub : (n + 1) + fuel - n = fuel + 1 := by omega
    rw [hsub, pollRun_step_cont henv hobs h1 h2, Option.map_map]
    congr 1
    funext tr
    simp [Function.comp, List.append_assoc]
  · rw [settleCount_append,
      settleCount_contTrace (env taskId) onUpdate interval n 0
        (fun j hj => by simpa using hreach j hj)]
    rfl

theorem pollTaskStatus_nonterminal_continues_witness :
    pollTaskStatus "task-1" envQueued obsQuiet 2000 3 = none ∧
    defaultPollInterval = 2000 := by
  have h := pollTaskStatus_nonterminal_continues "task-1" envQueued obsQuiet
    2000 0 (demoSnap "queued" none) (by decide) rfl rfl (by decide) (by decide)
  refine ⟨?_, h.2.2⟩
  have h1 := h.1 2
  exact h1.trans (by decide)

/-- Environment fetching `pending` once, then a thrown transport error. -/
def envNetFail : String → FetchEnv := fun _ n =>
  if n = 0 then .ok (demoSnap "pending" none)
  else .error (.other "ECONNREFUSED")

/-- C5: if the `n`-th fetch throws a transport-level error `e` (all earlier
rounds continuing), the outcome is immediately rejected with that native
error value — the trace ends with `reject e`, with `e` an arbitrary thrown
value, not wrapped into a `new Error(...)` task-failure rejection — the
observer is not invoked for that round, and no further fetch is issued for
any larger fuel bound: the trace contains exactly `n + 1` fetches. -/
theorem pollTaskStatus_transport_error_rejects (taskId : String)
    (env : String → FetchEnv) (onUpdate : Observer) (interval n : Nat)
    (e : JSValue)
    (hreach : ∀ k, k < n → continuesAt (env taskId) onUpdate k = true)
    (henv : env taskId n = .error e) (fuel : Nat) (hfuel : n < fuel) :
    (pollTaskStatus taskId env onUpdate interval fuel
      = some (contTrace (env taskId) interval 0 n ++
          [.fetchStart n, .fetchErr n e, .reject e])) ∧
    fetchCount (contTrace (env taskId) interval 0 n ++
        [.fetchStart n, .fetchErr n e, .reject e]) = n + 1 :=
  ⟨pollRun_settle_at hreach hfuel (fun _ => pollRun_step_err henv),
   fetchCount_settled _ hreach rfl⟩

theorem pollTaskStatus_transport_error_rejects_witness :
    pollTaskStatus "task-1" envNetFail obsQuiet 2000 7
      = some [.fetchStart 0, .fetchOk 0 (demoSnap "pending" none),
              .observe 0 (demoSnap "pending" none), .wait 2000,
              .fetchStart 1, .fetchErr 1 (.other "ECONNREFUSED"),
              .reject (.other "ECONNREFUSED")] := by
  have h := (pollTaskStatus_transport_error_rejects "task-1" envNetFail
    obsQuiet 2000 1 (.other "ECONNREFUSED") (by decide) rfl 7 (by decide)).1
  exact h.trans (by decide)

/-- Environment for the spec's `[pending, processing, processing, success]`
example sequence. -/
def envSeqC6 : String → FetchEnv := fun _ n =>
  .ok (demoSnap
    (["pending", "processing", "processing", "success"].getD n "success") none)

/-- C6: for the fetched status sequence
`[pending, processing, processing, success]`, the poller issues exactly 4
fetches, invokes the observer exactly 4 times — once per poll, in poll
order, each with that poll's snapshot — and resolves the outcome with the
final snapshot, which equals the snapshot of the last observer
invocation. -/
theorem pollTaskStatus_example_sequence :
    pollTaskStatus "task-1" envSeqC6 obsQuiet 2000 4
      = some [.fetchStart 0, .fetchOk 0 (demoSnap "pending" none),
              .observe 0 (demoSnap "pending" none), .wait 2000,
              .fetchStart 1, .fetchOk 1 (demoSnap "processing" none),
              .observe 1 (demoSnap "processing" none), .wait 2000,
              .fetchStart 2, .fetchOk 2 (demoSnap "processing" none),
              .observe 2 (demoSnap "processing" none), .wait 2000,
              .fetchStart 3, .fetchOk 3 (demoSnap "success" none),
              .observe 3 (demoSnap "success" none),
              .resolve (demoSnap "success" none)] ∧
    fetchCount
        [.fetchStart 0, .fetchOk 0 (demoSnap "pending" none),
         .observe 0 (demoSnap "pending" none), .wait 2000,
         .fetchStart 1, .fetchOk 1 (demoSnap "processing" none),
         .observe 1 (demoSnap "processing" none), .wait 2000,
         .fetchStart 2, .fetchOk 2 (demoSnap "processing" none),
         .observe 2 (demoSnap "processing" none), .wait 2000,
         .fetchStart 3, .fetchOk 3 (demoSnap "success" none),
         .observe 3 (demoSnap "success" none),
         .resolve (demoSnap "success" none)] = 4 ∧
    observedPolls
        [.fetchStart 0, .fetchOk 0 (demoSnap "pending" none),
         .observe 0 (demoSnap "pending" none), .wait 2000,
         .fetchStart 1, .fetchOk 1 (demoSnap "processing" none),
         .observe 1 (demoSnap "processing" none), .wait 2000,
         .fetchStart 2, .fetchOk 2 (demoSnap "processing" none),
         .observe 2 (demoSnap "processing" none), .wait 2000,
         .fetchStart 3, .fetchOk 3 (demoSnap "success" none),
         .observe 3 (demoSnap "success" none),
         .resolve (demoSnap "success" none)] = [0, 1, 2, 3] ∧
    observedSnaps
        [.fetchStart 0, .fetchOk 0 (demoSnap "pending" none),
         .observe 0 (demoSnap "pending" none), .wait 2000,
         .fetchStart 1, .fetchOk 1 (demoSnap "processing" none),
         .observe 1 (demoSnap "processing" none), .wait 2000,
         .fetchStart 2, .fetchOk 2 (demoSnap "processing" none),
         .observe 2 (demoSnap "processing" none), .wait 2000,
         .fetchStart 3, .fetchOk 3 (demoSnap "success" none),
         .observe 3 (demoSnap "success" none),
         .resolve (demoSnap "success" none)]
      = [demoSnap "pending" none, demoSnap "processing" none,
         demoSnap "processing" none, demoSnap "success" none] ∧
    (observedSnaps
        [.fetchStart 0, .fetchOk 0 (demoSnap "pending" none),
         .observe 0 (demoSnap "pending" none), .wait 2000,
         .fetchStart 1, .fetchOk 1 (demoSnap "processing" none),
         .observe 1 (demoSnap "processing" none), .wait 2000,
         .fetchStart 2, .fetchOk 2 (demoSnap "processing" none),
         .observe 2 (demoSnap "processing" none), .wait 2000,
         .fetchStart 3, .fetchOk 3 (demoSnap "success" none),
         .observe 3 (demoSnap "success" none),
         .resolve (demoSnap "success" none)]).getLast?
      = some (demoSnap "success" none) ∧
    (List.getLast?
        ([.fetchStart 0, .fetchOk 0 (demoSnap "pending" none),
          .observe 0 (demoSnap "pending" none), .wait 2000,
          .fetchStart 1, .fetchOk 1 (demoSnap "processing" none),
          .observe 1 (demoSnap "processing" none), .wait 2000,
          .fetchStart 2, .fetchOk 2 (demoSnap "processing" none),
          .observe 2 (demoSnap "processing" none), .wait 2000,
          .fetchStart 3, .fetchOk 3 (demoSnap "success" none),
          .observe 3 (demoSnap "success" none),
          .resolve (demoSnap "success" none)] : List PollEvent))
      = some (.resolve (demoSnap "success" none)) := by
  refine ⟨by decide, by decide, by decide, by decide, by decide, by decide⟩

/-- Observer that throws on every invocation. -/
def obsBoom : Observer := fun _ _ => some (.other "observer raised")

/-- C10: if the observer callback itself throws on the `n`-th poll (all
earlier rounds continuing), the thrown value lands in the surrounding
`catch` and the outcome is rejected with exactly that value; polling
stops — no further fetch is issued for any larger fuel bound. -/
theorem pollTaskStatus_observer_throw_rejects (taskId : String)
    (env : String → FetchEnv) (onUpdate : Observer) (interval n : Nat)
    (s : VoiceCloneStatusResponse) (e : JSValue)
    (hreach : ∀ k, k < n → continuesAt (env taskId) onUpdate k = true)
    (henv : env taskId n = .ok s) (hobs : onUpdate n s = some e)
    (fuel : Nat) (hfuel : n < fuel) :
    (pollTaskStatus taskId env onUpdate interval fuel
      = some (contTrace (env taskId) interval 0 n ++
          [.fetchStart n, .fetchOk n s, .observe n s, .reject e])) ∧
    fetchCount (contTrace (env taskId) interval 0 n ++
        [.fetchStart n, .fetchOk n s, .observe n s, .reject e]) = n + 1 :=
  ⟨pollRun_settle_at hreach hfuel (fun _ => pollRun_step_throw henv hobs),
   fetchCount_settled _ hreach rfl⟩

theorem pollTaskStatus_observer_throw_rejects_witness :
    pollTaskStatus "task-1" envQueued obsBoom 2000 9
      = some [.fetchStart 0, .fetchOk 0 (demoSnap "queued" none),
              .observe 0 (demoSnap "queued" none),
              .reject (.other "observer raised")] := by
  have h := (pollTaskStatus_observer_throw_rejects "task-1" envQueued obsBoom
    2000 0 (demoSnap "queued" none) (.other "observer raised") (by decide)
    rfl rfl 9 (by decide)).1
  exact h.trans (by decide)

/-- Serialization invariant of a trace whose first polled round is `start`:
every issued fetch belongs to a round `≥ start`; the fetch of a round
`m + 1` beyond the first is preceded by the completed observer invocation of
round `m`; and every issued fetch is immediately followed by its own
response event, so no two fetches are in flight at once. -/
def SerializedTrace (start : Nat) (tr : List PollEvent) : Prop :=
  (∀ (i m : Nat), tr[i]? = some (PollEvent.fetchStart m) → start ≤ m) ∧
  (∀ (i m : Nat), tr[i]? = some (PollEvent.fetchStart (m + 1)) → start ≤ m →
    ∃ (j : Nat) (s : VoiceCloneStatusResponse),
      j < i ∧ tr[j]? = some (PollEvent.observe m s)) ∧
  (∀ (i m : Nat), tr[i]? = some (PollEvent.fetchStart m) →
    (∃ s, tr[i + 1]? = some (PollEvent.fetchOk m s)) ∨
    (∃ e, tr[i + 1]? = some (PollEvent.fetchErr m e)))

theorem serializedTrace_round3 (start : Nat) (e : JSValue) :
    SerializedTrace start
      [.fetchStart start, .fetchErr start e, .reject e] := by
  refine ⟨?_, ?_, ?_⟩
  · intro i m hi
    rcases i with _|_|_|i
    · simp at hi; omega
    · simp at hi
    · simp at hi
    · simp at hi
  · intro i m hi hm
    rcases i with _|_|_|i
    · simp at hi; omega
    · simp at hi
    · simp at hi
    · simp at hi
  · intro i m hi
    rcases i with _|_|_|i
    · simp at hi
      subst hi
      exact .inr ⟨e, rfl⟩
    · simp at hi
    · simp at hi
    · simp at hi

theorem serializedTrace_round4 (start : Nat) (s : VoiceCloneStatusResponse)
    (x : PollEvent) (hx : ∀ m, x ≠ .fetchStart m) :
    SerializedTrace start
      [.fetchStart start, .fetchOk start s, .observe start s, x] := by
  refine ⟨?_, ?_, ?_⟩
  · intro i m hi
    rcases i with _|_|_|_|i
    · simp at hi; omega
    · simp at hi
    · simp at hi
    · simp at hi
      exact absurd hi (hx m)
    · simp at hi
  · intro i m hi hm
    rcases i with _|_|_|_|i
    · simp at hi; omega
    · simp at hi
    · simp at hi
    · simp at hi
      exact absurd hi (hx (m + 1))
    · simp at hi
  · intro i m hi
    rcases i with _|_|_|_|i
    · simp at hi
      subst hi
      exact .inl ⟨s, rfl⟩
    · simp at hi
    · simp at hi
    · simp at hi
      exact absurd hi (hx m)
    · simp at hi

theorem serializedTrace_cons (start : Nat) (s : VoiceCloneStatusResponse)
    (interval : Nat) (tr : List PollEvent)
    (h : SerializedTrace (start + 1) tr) :
    SerializedTrace start
      (.fetchStart start :: .fetchOk start s :: .observe start s ::
       .wait interval :: tr) := by
  obtain ⟨hA, hB, hC⟩ := h
  refine ⟨?_, ?_, ?_⟩
  · intro i m hi
    rcases i with _|_|_|_|i
    · simp at hi; omega
    · simp at hi
    · simp at hi
    · simp at hi
    · simp at hi
      have := hA i m hi
      omega
  · intro i m hi hm
    rcases i with _|_|_|_|i
    · simp at hi; omega
    · simp at hi
    · simp at hi
    · simp at hi
    · simp at hi
      by_cases hms : m = start
      · subst hms
        exact ⟨2, s, by omega, rfl⟩
      · obtain ⟨j, s', hj, hjj⟩ := hB i m hi (by
          have := hA i (m + 1) hi
          omega)
        have h4 : (PollEvent.fetchStart start :: .fetchOk start s ::
            .observe start s :: .wait interval :: tr)[j + 4]? = tr[j]? := by
          have hj4 : j + 4 = j + 1 + 1 + 1 + 1 := by omega
          rw [hj4]
          simp
        exact ⟨j + 4, s', by omega, h4.trans hjj⟩
  · intro i m hi
    rcases i with _|_|_|_|i
    · simp at hi
      subst hi
      exact .inl ⟨s, rfl⟩
    · simp at hi
    · simp at hi
    · simp at hi
    · simp at hi
      rcases hC i m hi with ⟨s', hs'⟩ | ⟨e', he'⟩
      · refine .inl ⟨s', ?_⟩
        simpa using hs'
      · refine .inr ⟨e', ?_⟩
        simpa using he'

theorem serialized_pollRun (env : FetchEnv) (onUpdate : Observer)
    (interval : Nat) :
    ∀ (fuel start : Nat) (trace : List PollEvent),
      pollRun env onUpdate interval fuel start = some trace →
      SerializedTrace start trace := by
  intro fuel
  induction fuel with
  | zero => intro start trace h; simp [pollRun] at h
  | succ fuel ih =>
    intro start trace h
    cases henv : env start with
    | error e =>
      rw [pollRun_step_err henv] at h
      injection h with h
      subst h
      exact serializedTrace_round3 start e
    | ok s =>
      cases hobs : onUpdate start s with
      | some e =>
        rw [pollRun_step_throw henv hobs] at h
        injection h with h
        subst h
        exact serializedTrace_round4 start s _ (fun m => by simp)
      | none =>
        by_cases h1 : s.status = "success"
        · rw [pollRun_step_success henv hobs h1] at h
          injection h with h
          subst h
          exact serializedTrace_round4 start s _ (fun m => by simp)
        · by_cases h2 : s.status = "failure"
          · rw [pollRun_step_failure henv hobs h2] at h
            injection h with h
            subst h
            exact serializedTrace_round4 start s _ (fun m => by simp)
          · rw [pollRun_step_cont henv hobs h1 h2] at h
            cases hrec : pollRun env onUpdate interval fuel (start + 1) with
            | none => rw [hrec] at h; simp at h
            | some tr =>
              rw [hrec] at h
              injection h with h
              subst h
              exact serializedTrace_cons start s interval tr
                (ih (start + 1) tr hrec)

theorem observedPolls_pollRun (env : FetchEnv) (onUpdate : Observer)
    (interval : Nat) :
    ∀ (fuel start : Nat) (trace : List PollEvent),
      pollRun env onUpdate interval fuel start = some trace →
      ∃ k, observedPolls trace = pollRange start k := by
  intro fuel
  induction fuel with
  | zero => intro start trace h; simp [pollRun] at h
  | succ fuel ih =>
    intro start trace h
    cases henv : env start with
    | error e =>
      rw [pollRun_step_err henv] at h
      injection h with h
      subst h
      exact ⟨0, rfl⟩
    | ok s =>
      cases hobs : onUpdate start s with
      | some e =>
        rw [pollRun_step_throw henv hobs] at h
        injection h with h
        subst h
        exact ⟨1, rfl⟩
      | none =>
        by_cases h1 : s.status = "success"
        · rw [pollRun_step_success henv hobs h1] at h
          injection h with h
          subst h
          exact ⟨1, rfl⟩
        · by_cases h2 : s.status = "failure"
          · rw [pollRun_step_failure henv hobs h2] at h
            injection h with h
            subst h
            exact ⟨1, rfl⟩
          · rw [pollRun_step_cont henv hobs h1 h2] at h
            cases hrec : pollRun env onUpdate interval fuel (start + 1) with
            | none => rw [hrec] at h; simp at h
            | some tr =>
              rw [hrec] at h
              injection h with h
              subst h
              obtain ⟨k, hk⟩ := ih (start + 1) tr hrec
              refine ⟨k + 1, ?_⟩
              rw [show observedPolls
                    (PollEvent.fetchStart start :: .fetchOk start s ::
                     .observe start s :: .wait interval :: tr)
                    = start :: observedPolls tr from rfl, hk]
              rfl

/-- C7: within one polling session, fetches are strictly serialized. In
every trace the poll loop can produce: (i) the fetch of round `m + 1` is
issued only after the observer invocation of round `m` appears earlier in
the trace (which itself follows round `m`'s response); (ii) each issued
fetch is immediately followed by its own response event
(`fetchOk`/`fetchErr`), so no two fetches for the task are ever in flight
simultaneously; (iii) the observer is invoked exactly once per polled
round, in strict increasing poll order: the observed poll indices are
exactly `0, 1, …, k - 1` for some `k`. -/
theorem pollTaskStatus_serialized (taskId : String) (env : String → FetchEnv)
    (onUpdate : Observer) (interval fuel : Nat) (tr : List PollEvent)
    (h : pollTaskStatus taskId env onUpdate interval fuel = some tr) :
    (∀ (i m : Nat), tr[i]? = some (PollEvent.fetchStart (m + 1)) →
      ∃ (j : Nat) (s : VoiceCloneStatusResponse),
        j < i ∧ tr[j]? = some (PollEvent.observe m s)) ∧
    (∀ (i m : Nat), tr[i]? = some (PollEvent.fetchStart m) →
      (∃ s, tr[i + 1]? = some (PollEvent.fetchOk m s)) ∨
      (∃ e, tr[i + 1]? = some (PollEvent.fetchErr m e))) ∧
    (∃ k, observedPolls tr = pollRange 0 k) := by
  obtain ⟨-, hB, hC⟩ :=
    serialized_pollRun (env taskId) onUpdate interval fuel 0 tr h
  exact ⟨fun i m hi => hB i m hi (Nat.zero_le m), hC,
    observedPolls_pollRun (env taskId) onUpdate interval fuel 0 tr h⟩

theorem pollTaskStatus_serialized_witness :
    ∃ k, observedPolls
        [.fetchStart 0, .fetchOk 0 (demoSnap "pending" none),
         .observe 0 (demoSnap "pending" none), .wait 2000,
         .fetchStart 1, .fetchOk 1 (demoSnap "success" none),
         .observe 1 (demoSnap "success" none),
         .resolve (demoSnap "success" none)] = pollRange 0 k :=
  (pollTaskStatus_serialized "task-1" envSucceedsAt1 obsQuiet 2000 2 _
    (by decide)).2.2

/-- Models JS `String.prototype.trim`: strip leading and trailing
whitespace. (Implemented on the character list so that it evaluates by
kernel reduction.) -/
def strTrim (s : String) : String :=
  String.mk
    (((s.toList.dropWhile Char.isWhitespace).reverse.dropWhile
        Char.isWhitespace).reverse)

/-- Substring containment, modelling JS `String.prototype.includes`. -/
def strContains (s pat : String) : Bool :=
  (List.range (s.toList.length + 1)).any fun i =>
    pat.toList.isPrefixOf (s.toList.drop i)

/-- Characters allowed in a URL scheme after its first letter. -/
def isSchemeTailChar (c : Char) : Bool :=
  c.isAlphanum || c = '+' || c = '-' || c = '.'

/-- Models the platform `new URL(url)` constructor restricted to what
`validateVideoLink` consumes: `none` when the constructor throws, otherwise
the parsed URL's lowercased hostname. A URL parses when a valid scheme (a
letter followed by letters/digits/`+`/`-`/`.`) precedes the first `:`. For
`scheme://authority/...` URLs the hostname is the authority minus any
userinfo (through the last `@`) and any `:port` suffix, and an empty
authority is a parse failure (as for the special schemes `validateVideoLink`
cares about); for URLs without `//` the hostname is empty. -/
def parseHostname (url : String) : Option String :=
  let cs := url.toList
  let scheme := cs.takeWhile (fun c => c != ':')
  if scheme.length = cs.length then none
  else if scheme.isEmpty then none
  else if !(scheme.headI.isAlpha && (scheme.drop 1).all isSchemeTailChar) then
    none
  else
    let rest := cs.drop (scheme.length + 1)
    if rest.take 2 = ['/', '/'] then
      let auth := (rest.drop 2).takeWhile
        (fun c => c != '/' && c != '?' && c != '#')
      if auth.isEmpty then none
      else
        let hostport :=
          if auth.contains '@' then
            (auth.reverse.takeWhile (fun c => c != '@')).reverse
          else auth
        let host := hostport.takeWhile (fun c => c != ':')
        some (String.mk (host.map Char.toLower))
    else some ""

/-- `LinkValidation` from `frontend/src/types/upload.ts`. -/
structure LinkValidation where
  isValid : Bool
  platform : Option String
  error : Option String
deriving DecidableEq

/-- `validateVideoLink` from `frontend/src/utils/link-validation.ts`: blank
input is rejected with "Please enter a URL"; a URL the constructor throws on
is rejected with "Please enter a valid URL"; otherwise the hostname is
matched by substring against `youtube.com`/`youtu.be`, then `vimeo.com`,
then `drive.google.com`; any other well-formed URL is rejected with the
fixed unsupported-platform message. -/
def validateVideoLink (url : String) : LinkValidation :=
  if strTrim url = "" then
    { isValid := false, platform := none, error := some "Please enter a URL" }
  else
    match parseHostname url with
    | none =>
      { isValid := false, platform := none,
        error := some "Please enter a valid URL" }
    | some hostname =>
      if strContains hostname "youtube.com" ||
          strContains hostname "youtu.be" then
        { isValid := true, platform := some "youtube", error := none }
      else if strContains hostname "vimeo.com" then
        { isValid := true, platform := some "vimeo", error := none }
      else if strContains hostname "drive.google.com" then
        { isValid := true, platform := some "google-drive", error := none }
      else
        { isValid := false, platform := none,
          error :=
            some "Only YouTube, Vimeo, and Google Drive links are supported" }

/-- The platform assignment exactly as the specification words it (first
matching rule wins): hostname containing `youtube.com` or `youtu.be` →
`youtube`; containing `vimeo.com` → `vimeo`; containing `drive.google.com`
→ `google-drive`; otherwise none. Second definition, written from the
spec's words, for the refinement comparison in C8. -/
def specPlatformOf (hostname : String) : Option String :=
  if strContains hostname "youtube.com" || strContains hostname "youtu.be" then
    some "youtube"
  else if strContains hostname "vimeo.com" then some "vimeo"
  else if strContains hostname "drive.google.com" then some "google-drive"
  else none

/-- The whole validation outcome as the specification words it: fixed
messages for blank and malformed input, a platform from `specPlatformOf`
for a recognized hostname, the fixed unsupported-platform message
otherwise. -/
def validateVideoLink_specWording (url : String) : LinkValidation :=
  if strTrim url = "" then
    { isValid := false, platform := none, error := some "Please enter a URL" }
  else
    match parseHostname url with
    | none =>
      { isValid := false, platform := none,
        error := some "Please enter a valid URL" }
    | some hostname =>
      match specPlatformOf hostname with
      | some p => { isValid := true, platform := some p, error := none }
      | none =>
        { isValid := false, platform := none,
          error :=
            some "Only YouTube, Vimeo, and Google Drive links are supported" }

/-- C8: `validateVideoLink` implements exactly the case analysis the spec
describes — for every input string the source function and the function
transcribed from the spec's words agree — and it maps each of the spec's
example inputs to the stated result. -/
theorem validateVideoLink_matches_spec :
    (∀ url, validateVideoLink url = validateVideoLink_specWording url) ∧
    validateVideoLink ""
      = { isValid := false, platform := none,
          error := some "Please enter a URL" } ∧
    validateVideoLink "not a url"
      = { isValid := false, platform := none,
          error := some "Please enter a valid URL" } ∧
    validateVideoLink "https://youtu.be/abc123"
      = { isValid := true, platform := some "youtube", error := none } ∧
    validateVideoLink "https://www.youtube.com/watch?v=abc"
      = { isValid := true, platform := some "youtube", error := none } ∧
    validateVideoLink "https://vimeo.com/12345"
      = { isValid := true, platform := some "vimeo", error := none } ∧
    validateVideoLink "https://drive.google.com/file/d/xyz"
      = { isValid := true, platform := some "google-drive", error := none } ∧
    validateVideoLink "https://example.com/video"
      = { isValid := false, platform := none,
          error :=
            some "Only YouTube, Vimeo, and Google Drive links are supported" }
    := by
  refine ⟨?_, by decide, by decide, by decide, by decide, by decide,
    by decide, by decide⟩
  intro url
  unfold validateVideoLink validateVideoLink_specWording specPlatformOf
  by_cases h : strTrim url = ""
  · simp [h]
  · simp only [h, if_false, if_neg h]
    cases parseHostname url with
    | none => rfl
    | some hostname =>
      by_cases h1 : (strContains hostname "youtube.com" ||
          strContains hostname "youtu.be") = true
      · simp [h1]
      · by_cases h2 : strContains hostname "vimeo.com" = true
        · simp [h1, h2]
        · by_cases h3 : strContains hostname "drive.google.com" = true
          · simp [h1, h2, h3]
          · simp [h1, h2, h3]

/-- A value stored in a multipart form field: a string, or binary file
content (name and bytes), as appended by `FormData.append`. -/
inductive FormValue where
  | str (s : String)
  | file (name : String) (bytes : List Nat)
deriving DecidableEq

/-- The `source` tag of an `UploadRequest`
(`"local" | "google-drive" | "youtube" | "vimeo"` in `upload.ts`). -/
inductive SourceTag where
  | localFile
  | googleDrive
  | youtube
  | vimeo
deriving DecidableEq

/-- The string each source tag denotes. None of them is empty, so JS
`request.source || d` coincides with defaulting on `undefined` alone. -/
def SourceTag.toStr : SourceTag → String
  | .localFile => "local"
  | .googleDrive => "google-drive"
  | .youtube => "youtube"
  | .vimeo => "vimeo"

/-- `UploadRequest` from `upload.ts`: discriminant `type`
(`"file" | "link"`), payload `data` (`File | string`), optional `source`
tag, optional `target_language` string, optional `voice_settings`
mapping. -/
structure UploadRequest where
  type : String
  data : FormValue
  source : Option SourceTag
  target_language : Option String
  voice_settings : Option (List (String × String))
deriving DecidableEq

/-- Models `JSON.stringify` on a string-valued record, in insertion
order. -/
def jsonStringify (vs : List (String × String)) : String :=
  "\x7b" ++ String.intercalate ","
    (vs.map fun p => "\"" ++ p.1 ++ "\":\"" ++ p.2 ++ "\"") ++ "\x7d"

/-- The multipart form `submitVoiceClone` (`api.ts`) builds, entry by entry
in append order: `file` + `source` (default `"local"`) when
`request.type === "file"`, else `link` + `source` (default `"unknown"`);
then `type`; then `target_language` under `if (request.target_language)` —
so a present-but-empty string is skipped (falsy); then `voice_settings`
(JSON-serialized) whenever present, since any object is truthy. -/
def submitVoiceCloneForm (r : UploadRequest) : List (String × FormValue) :=
  (if r.type = "file" then
    [("file", r.data),
     ("source", .str ((r.source.map SourceTag.toStr).getD "local"))]
   else
    [("link", r.data),
     ("source", .str ((r.source.map SourceTag.toStr).getD "unknown"))])
  ++ [("type", .str r.type)]
  ++ (match r.target_language with
      | some l => if l = "" then [] else [("target_language", .str l)]
      | none => [])
  ++ (match r.voice_settings with
      | some vs => [("voice_settings", .str (jsonStringify vs))]
      | none => [])

/-- `ApiResponse` from `upload.ts`, abridged to the fields the submission
contract names. -/
structure ApiResponse where
  success : Bool
  message : String
  task_id : Option String
  status : String
deriving DecidableEq

/-- An axios response: HTTP status and parsed body (`response.data`). -/
structure AxiosResponse (A : Type) where
  status : Nat
  data : A

/-- `submitVoiceClone` from `api.ts`: posts the constructed multipart form
to `/voice/voice-clone` through the transport collaborator and returns the
response body (`response.data`). -/
def submitVoiceClone
    (post : String -> List (String × FormValue) -> AxiosResponse ApiResponse)
    (r : UploadRequest) : ApiResponse :=
  (post "/voice/voice-clone" (submitVoiceCloneForm r)).data

/-- Upload request whose `target_language` is present but empty — a legal
value of its declared TypeScript type `string`. -/
def reqEmptyLang : UploadRequest :=
  { type := "file", data := .file "clip.mp4" [1, 2, 3],
    source := some .localFile, target_language := some "",
    voice_settings := none }

/-- C9 counterexample: `target_language` is present in the request (as the
empty string), yet the constructed form contains no `target_language`
entry, because `if (request.target_language)` treats `""` as falsy. So
"the target-language code is included exactly when the optional field is
present" fails at this input. -/
theorem submitVoiceClone_target_language_counterexample :
    reqEmptyLang.target_language = some "" ∧
    (submitVoiceCloneForm reqEmptyLang).all
      (fun p => p.1 != "target_language") = true := by decide

/-- C9 (amended): for every upload request and transport collaborator,
`submitVoiceClone` posts a single multipart form to `/voice/voice-clone`
and returns the collaborator's response body. The form carries the raw
content under `file` (when the discriminant is `"file"`) or the link under
`link` (otherwise), the source tag under `source` (defaulted to
`"local"`/`"unknown"` when absent), and the discriminant under `type`; it
carries the target-language code under `target_language` exactly when that
field is present AND non-empty (a present-but-empty string is dropped, see
the counterexample), and the JSON-serialized voice-settings mapping under
`voice_settings` exactly when that field is present. -/
theorem submitVoiceClone_contract
    (post : String -> List (String × FormValue) -> AxiosResponse ApiResponse)
    (r : UploadRequest) :
    submitVoiceClone post r
      = (post "/voice/voice-clone" (submitVoiceCloneForm r)).data ∧
    ("type", FormValue.str r.type) ∈ submitVoiceCloneForm r ∧
    (r.type = "file" →
      ("file", r.data) ∈ submitVoiceCloneForm r ∧
      ("source", FormValue.str ((r.source.map SourceTag.toStr).getD "local"))
        ∈ submitVoiceCloneForm r) ∧
    (r.type ≠ "file" →
      ("link", r.data) ∈ submitVoiceCloneForm r ∧
      ("source", FormValue.str ((r.source.map SourceTag.toStr).getD "unknown"))
        ∈ submitVoiceCloneForm r) ∧
    (∀ l, r.target_language = some l → l ≠ "" →
      ("target_language", FormValue.str l) ∈ submitVoiceCloneForm r) ∧
    ((r.target_language = none ∨ r.target_language = some "") →
      (submitVoiceCloneForm r).all (fun p => p.1 != "target_language")
        = true) ∧
    (∀ vs, r.voice_settings = some vs →
      ("voice_settings", FormValue.str (jsonStringify vs))
        ∈ submitVoiceCloneForm r) ∧
    (r.voice_settings = none →
      (submitVoiceCloneForm r).all (fun p => p.1 != "voice_settings")
        = true) := by
  refine ⟨rfl, ?_, ?_, ?_, ?_, ?_, ?_, ?_⟩
  · simp [submitVoiceCloneForm]
  · intro ht
    constructor <;> simp [submitVoiceCloneForm, ht]
  · intro ht
    constructor <;> simp [submitVoiceCloneForm, ht]
  · intro l hl hle
    simp [submitVoiceCloneForm, hl, hle]
  · intro hl
    by_cases ht : r.type = "file" <;>
      rcases hv : r.voice_settings with _ | vs <;>
      rcases hl with hl | hl <;>
      simp [submitVoiceCloneForm, ht, hl, hv]
  · intro vs hv
    simp [submitVoiceCloneForm, hv]
  · intro hv
    by_cases ht : r.type = "file" <;>
      rcases hl : r.target_language with _ | l <;>
      simp [submitVoiceCloneForm, ht, hl, hv]

/-- Fully-populated request used as the C9 witness input. -/
def reqFull : UploadRequest :=
  { type := "link", data := .str "https://youtu.be/abc123",
    source := some .youtube, target_language := some "es",
    voice_settings := some [("stability", "0.5")] }

/-- A demo transport collaborator returning a fixed response. -/
def postDemo :
    String -> List (String × FormValue) -> AxiosResponse ApiResponse :=
  fun _ _ =>
    ⟨200, { success := true, message := "queued", task_id := some "t-9",
            status := "pending" }⟩

theorem submitVoiceClone_contract_witness :
    submitVoiceClone postDemo reqFull
      = (postDemo "/voice/voice-clone" (submitVoiceCloneForm reqFull)).data ∧
    ("link", FormValue.str "https://youtu.be/abc123")
      ∈ submitVoiceCloneForm reqFull ∧
    ("target_language", FormValue.str "es") ∈ submitVoiceCloneForm reqFull ∧
    ("voice_settings", FormValue.str (jsonStringify [("stability", "0.5")]))
      ∈ submitVoiceCloneForm reqFull := by
  have h := submitVoiceClone_contract postDemo reqFull
  exact ⟨h.1, (h.2.2.2.1 (by decide)).1, h.2.2.2.2.1 "es" rfl (by decide),
    h.2.2.2.2.2.2.1 [("stability", "0.5")] rfl⟩

end AuralFlow
